import Mathlib

/-!
Verification of the monkeyplug audio-censoring core against its specification.

The development shallowly embeds the relevant parts of
`src/monkeyplug/monkeyplug.py` (word normalization, profanity-dictionary
loading, transcript classification, mute/beep interval synthesis in
`Plugger.CreateCleanMuteList`, the beep filter-graph assembly and the
already-tagged skip branch of `Plugger.EncodeCleanAudio`).

Modelling conventions:
* Python floats carrying times in seconds are modelled as exact rationals;
  the `format(x, ".3f")` quantization is modelled by `fmt3`, rounding to the
  nearest thousandth.
* Python strings are Lean strings; `str.split("|")` with its keep-empty-parts
  semantics is `splitOnPipe`; `str.lower`, `str.strip` and the
  punctuation-deleting `str.translate` are `pyLower`, `pyStrip` and
  `removePunctuation` (ASCII, which covers all data in the repository).
* The Python dict `swearsMap` is an association list with insertion order and
  overwrite-on-assign semantics (`setKey`).
* ffmpeg directive strings are represented structurally: each constructor
  field corresponds to exactly one value interpolated into the f-string that
  the source builds, in source order.
-/

/-! ## Word normalization (`scrubword`, monkeyplug.py lines 73-74) -/

/-- ASCII lower-casing, modelling `str.lower()` on the ASCII data involved. -/
def pyLower (s : String) : String :=
  String.mk (s.toList.map Char.toLower)

/-- Python whitespace for `str.strip()`: space, tab, newline, carriage
return, vertical tab, form feed. -/
def isPySpace (c : Char) : Bool :=
  c == ' ' || c == '\t' || c == '\n' || c == '\r' || c.toNat == 11 || c.toNat == 12

/-- Python `str.strip()`: drop whitespace from both ends. -/
def pyStrip (s : String) : String :=
  String.mk (((s.toList.dropWhile isPySpace).reverse.dropWhile isPySpace).reverse)

/-- Membership in `string.punctuation`, i.e. the ASCII ranges 33-47, 58-64,
91-96 and 123-126. -/
def isPunct (c : Char) : Bool :=
  (33 ≤ c.toNat && c.toNat ≤ 47) || (58 ≤ c.toNat && c.toNat ≤ 64) ||
  (91 ≤ c.toNat && c.toNat ≤ 96) || (123 ≤ c.toNat && c.toNat ≤ 126)

/-- Python `str.translate(str.maketrans(.., .., string.punctuation))`:
delete every punctuation character. -/
def removePunctuation (s : String) : String :=
  String.mk (s.toList.filter (fun c => !isPunct c))

/-- The word normalizer of the source:
`str(value).lower().strip().translate(str.maketrans(.., .., string.punctuation))`. -/
def scrubword (value : String) : String :=
  removePunctuation (pyStrip (pyLower value))

/-! ## Profanity dictionary (`Plugger.__init__`, monkeyplug.py lines 334-339) -/

/-- Split a character list at every pipe character, keeping empty segments,
as Python `str.split` with a one-character separator does. -/
def splitCharsPipe : List Char → List (List Char)
  | [] => [[]]
  | c :: cs =>
    if c == '|' then [] :: splitCharsPipe cs
    else
      match splitCharsPipe cs with
      | [] => [[c]]
      | g :: gs => (c :: g) :: gs

/-- Python `line.split("|")`. Never returns the empty list. -/
def splitOnPipe (s : String) : List String :=
  (splitCharsPipe s.toList).map String.mk

/-- First field of a dictionary line: `lineMap[0]` after the pipe split. -/
def headField (line : String) : String :=
  match splitOnPipe line with
  | [] => ""
  | w :: _ => w

/-- Replacement carried by a dictionary line:
`lineMap[1] if len(lineMap) > 1 else "*****"`. -/
def lineReplacement (line : String) : String :=
  match splitOnPipe line with
  | _ :: r :: _ => r
  | _ => "*****"

/-- The swears map is a Python dict keyed by strings; modelled as an
association list in insertion order with unique keys. -/
abbrev SwearsMap := List (String × String)

/-- Python dict assignment `m[k] = v`: overwrite the value in place when the
key is present, otherwise append the new binding. -/
def setKey (m : SwearsMap) (k v : String) : SwearsMap :=
  if m.any (fun p => p.1 == k) then
    m.map (fun p => if p.1 == k then (k, v) else p)
  else
    m ++ [(k, v)]

/-- One iteration of the loading loop:
`swearsMap[scrubword(lineMap[0])] = lineMap[1] if len(lineMap) > 1 else "*****"`. -/
def parseSwearsLine (m : SwearsMap) (line : String) : SwearsMap :=
  setKey m (scrubword (headField line)) (lineReplacement line)

/-- The loading loop of `Plugger.__init__` over the newline-stripped lines of
the swears file. -/
def loadSwears (lines : List String) : SwearsMap :=
  lines.foldl parseSwearsLine []

/-- Python dict lookup returning the stored value when the key is bound. -/
def lookupSwears (m : SwearsMap) (k : String) : Option String :=
  (m.find? (fun p => p.1 == k)).map Prod.snd

/-- The membership test the classifiers use:
`scrubword(word) in self.swearsMap`. -/
def isProfane (m : SwearsMap) (w : String) : Bool :=
  (lookupSwears m (scrubword w)).isSome

/-! ### Dictionary lemmas -/

theorem find?_map_setKey (k v : String) :
    ∀ m : SwearsMap,
      (m.map (fun p => if p.1 == k then (k, v) else p)).find? (fun q => q.1 == k) =
        if m.any (fun p => p.1 == k) then some (k, v) else none := by
  intro m
  induction m with
  | nil => rfl
  | cons p t ih =>
    cases hpk : (p.1 == k)
    · rw [List.map_cons, if_neg (by simp [hpk]), List.any_cons, hpk, Bool.false_or,
        List.find?_cons_of_neg _ (by simp [hpk]), ih]
    · rw [List.map_cons, if_pos hpk, List.any_cons, hpk, Bool.true_or,
        List.find?_cons_of_pos _ (by simp), if_pos rfl]

theorem lookupSwears_setKey_self (m : SwearsMap) (k v : String) :
    lookupSwears (setKey m k v) k = some v := by
  unfold setKey lookupSwears
  by_cases h : m.any (fun p => p.1 == k)
  · rw [if_pos h, find?_map_setKey, if_pos h]
    rfl
  · rw [if_neg h]
    have hnone : m.find? (fun q => q.1 == k) = none := by
      rw [List.find?_eq_none]
      intro x hx hbeq
      exact h (List.any_of_mem hx hbeq)
    rw [List.find?_append, hnone]
    simp [List.find?]

theorem mem_setKey (m : SwearsMap) (k v : String) (e : String × String)
    (he : e ∈ setKey m k v) : e ∈ m ∨ e.1 = k := by
  unfold setKey at he
  by_cases h : m.any (fun p => p.1 == k)
  · rw [if_pos h] at he
    obtain ⟨p, hp, hpe⟩ := List.mem_map.mp he
    by_cases hk : p.1 == k
    · right
      rw [if_pos hk] at hpe
      rw [← hpe]
    · left
      rw [if_neg hk] at hpe
      rw [← hpe]
      exact hp
  · rw [if_neg h] at he
    rcases List.mem_append.mp he with h1 | h2
    · exact Or.inl h1
    · right
      rw [List.mem_singleton.mp h2]

theorem mem_loadSwears_aux (e : String × String) :
    ∀ (lines : List String) (m0 : SwearsMap),
      e ∈ lines.foldl parseSwearsLine m0 →
      e ∈ m0 ∨ ∃ line ∈ lines, e.1 = scrubword (headField line) := by
  intro lines
  induction lines with
  | nil => intro m0 h; exact Or.inl h
  | cons l ls ih =>
    intro m0 h
    rw [List.foldl_cons] at h
    rcases ih (parseSwearsLine m0 l) h with h1 | h2
    · rcases mem_setKey m0 _ _ e h1 with hm | hk
      · exact Or.inl hm
      · exact Or.inr ⟨l, List.mem_cons_self l ls, hk⟩
    · obtain ⟨line, hline, hkey⟩ := h2
      exact Or.inr ⟨line, List.mem_cons_of_mem l hline, hkey⟩

theorem loadSwears_append_last (lines : List String) (line : String) :
    loadSwears (lines ++ [line]) = parseSwearsLine (loadSwears lines) line := by
  unfold loadSwears
  rw [List.foldl_append]
  rfl

/-! ### C7, C8, C9 -/

/-- C7: the word normalizer lower-cases, trims and strips punctuation, so
casing and punctuation variants of a word normalize identically
(`scrubword "Damn!" = scrubword "damn" = scrubword "DAMN"`), words whose
normal forms agree are classified identically, and every dictionary key is
the normal form of the first field of some source line — the same
`scrubword` used on lookup keys. -/
theorem scrubword_canonicalizes :
    (scrubword "Damn!" = "damn" ∧ scrubword "damn" = "damn" ∧ scrubword "DAMN" = "damn") ∧
    (∀ (m : SwearsMap) (w1 w2 : String),
      scrubword w1 = scrubword w2 → isProfane m w1 = isProfane m w2) ∧
    (∀ (lines : List String) (e : String × String), e ∈ loadSwears lines →
      ∃ line ∈ lines, e.1 = scrubword (headField line)) := by
  refine ⟨by decide, ?_, ?_⟩
  · intro m w1 w2 h
    unfold isProfane
    rw [h]
  · intro lines e he
    rcases mem_loadSwears_aux e lines [] he with h0 | h1
    · cases h0
    · exact h1

theorem scrubword_canonicalizes_witness :
    isProfane [("damn", "*****")] "Damn!" = isProfane [("damn", "*****")] "DAMN" :=
  scrubword_canonicalizes.2.1 [("damn", "*****")] "Damn!" "DAMN" (by decide)

/-- C8 counterexample: the line `"heck|heck"` stores the explicit replacement
`"heck"`, not the default mask `"*****"` that the claim asserts. -/
theorem swears_line_heck_pipe_heck_not_default :
    lookupSwears (loadSwears ["heck|heck"]) "heck" = some "heck" ∧
    lookupSwears (loadSwears ["heck|heck"]) "heck" ≠ some "*****" := by
  decide

/-- C8 amended: a bare line `"heck"` gets the default mask `"*****"`; a line
with an explicit replacement stores that replacement even when it repeats the
word (`"heck|heck"` stores `"heck"`, `"heck|darn"` stores `"darn"`); and on
duplicate normalized keys the last-seen line wins. -/
theorem swears_parsing_replacements :
    lookupSwears (loadSwears ["heck"]) "heck" = some "*****" ∧
    lookupSwears (loadSwears ["heck|heck"]) "heck" = some "heck" ∧
    lookupSwears (loadSwears ["heck|darn"]) "heck" = some "darn" ∧
    (∀ (lines : List String) (line : String),
      lookupSwears (loadSwears (lines ++ [line])) (scrubword (headField line)) =
        some (lineReplacement line)) := by
  refine ⟨by decide, by decide, by decide, ?_⟩
  intro lines line
  rw [loadSwears_append_last]
  exact lookupSwears_setKey_self _ _ _

/-- C9 counterexample: a blank line does contribute an entry — the empty
normalized key bound to the default mask. -/
theorem blank_line_adds_empty_entry :
    loadSwears [""] = [("", "*****")] ∧ loadSwears [""] ≠ [] := by
  decide

/-- C9 amended: a blank line is parsed like any other line, so it binds the
empty normalized key to the default mask `"*****"` instead of being ignored. -/
theorem blank_line_binds_empty_key (lines : List String) :
    lookupSwears (loadSwears (lines ++ [""])) "" = some "*****" := by
  rw [loadSwears_append_last]
  exact lookupSwears_setKey_self _ "" "*****"

/-! ## Time model

Times in seconds are exact rationals; `format(x, ".3f")` is modelled by `fmt3`
(round to the nearest thousandth), and Python `int()` on an exact value by
`pyInt` (truncation toward zero). -/

/-- Quantization performed by `format(x, ".3f")` followed by `float(..)`:
round to the nearest multiple of 1/1000. -/
def fmt3 (q : ℚ) : ℚ :=
  ((round (q * 1000) : ℤ) : ℚ) / 1000

/-- Python `int()`: truncation toward zero. -/
def pyInt (q : ℚ) : ℤ :=
  q.num.tdiv (q.den : ℤ)

theorem fmt3_grid (k : ℤ) : fmt3 ((k : ℚ) / 1000) = (k : ℚ) / 1000 := by
  unfold fmt3
  rw [div_mul_cancel₀]
  · rw [round_intCast]
  · norm_num

theorem fmt3_mul_1000 (q : ℚ) : fmt3 q * 1000 = ((round (q * 1000) : ℤ) : ℚ) := by
  unfold fmt3
  field_simp

theorem pyInt_intCast (k : ℤ) : pyInt ((k : ℚ)) = k := by
  unfold pyInt
  rw [Rat.num_intCast, Rat.den_intCast]
  exact Int.tdiv_one k

theorem pyInt_fmt3_mul_1000 (q : ℚ) : pyInt (fmt3 q * 1000) = round (q * 1000) := by
  rw [fmt3_mul_1000, pyInt_intCast]

theorem fmt3_sub_fmt3 (a b : ℚ) : fmt3 (fmt3 a - fmt3 b) = fmt3 a - fmt3 b := by
  have h : fmt3 a - fmt3 b = ((round (a * 1000) - round (b * 1000) : ℤ) : ℚ) / 1000 := by
    unfold fmt3
    push_cast
    ring
  rw [h, fmt3_grid]

/-! ## Transcript words -/

/-- A transcript word as the recognizers produce it: text, start and end
times in seconds, confidence, and the scrub classification. The JSON field
named end is called `stop` here because `end` is reserved in Lean. -/
structure Word where
  word : String
  start : ℚ
  stop : ℚ
  conf : ℚ
  scrub : Bool
deriving DecidableEq

/-- Whisper classification step (monkeyplug.py lines 699-702): the raw text
is stripped in place and the scrub flag is recomputed by dictionary lookup
through `scrubword`. -/
def classifyWord (m : SwearsMap) (w : Word) : Word :=
  { w with word := pyStrip w.word, scrub := isProfane m (pyStrip w.word) }

/-! ## Interval synthesis (`Plugger.CreateCleanMuteList`, monkeyplug.py lines 360-408) -/

/-- The itertools pairwise recipe (monkeyplug.py lines 67-70). -/
def pairwise (l : List α) : List (α × α) :=
  l.zip l.tail

/-- Line 363: `[word for word in self.wordList if word["scrub"] is True]`. -/
def naughtyWords (wordList : List Word) : List Word :=
  wordList.filter (fun w => w.scrub)

/-- The dummy word appended at lines 366-376 so that pairwise can peek past
the last real word. -/
def dummyWord (lastWord : Word) : Word :=
  { word := "mothaflippin", start := lastWord.stop + 1, stop := lastWord.stop + 2,
    conf := 1, scrub := true }

/-- Lines 364-376: when the naughty-word list is non-empty, extend it with
the dummy word built from its last element. -/
def appendDummyWord (nws : List Word) : List Word :=
  match nws.getLast? with
  | none => nws
  | some lastWord => nws ++ [dummyWord lastWord]

/-- One entry of `muteTimeList`. Fields hold, in source order, the values
interpolated into the corresponding f-string: the volume filter carries the
between-window bounds; the fades carry the between-window bounds and the
fade start (`st=`), with the constant 5 ms fade length left implicit. -/
inductive MuteEntry where
  | volumeMute (enableFrom enableTo : ℚ)
  | afadeOut (enableFrom enableTo fadeStart : ℚ)
  | afadeIn (enableFrom enableTo fadeStart : ℚ)
deriving DecidableEq

/-- One entry of `sineTimeList`: `sine=f={hertz}:duration={duration}`. -/
structure SineEntry where
  freq : ℤ
  duration : ℚ
deriving DecidableEq

/-- One entry of `beepDelayList`:
`atrim=0:{duration},adelay={delay}|{delay}` with the millisecond delay
repeated once per channel. -/
structure DelayEntry where
  trimEnd : ℚ
  delaysMs : List ℤ
deriving DecidableEq

/-- The three lists `CreateCleanMuteList` appends to. -/
structure CleanLists where
  muteTimeList : List MuteEntry
  sineTimeList : List SineEntry
  beepDelayList : List DelayEntry
deriving DecidableEq

/-- Componentwise concatenation of the three lists. -/
def appendLists (a b : CleanLists) : CleanLists :=
  { muteTimeList := a.muteTimeList ++ b.muteTimeList
    sineTimeList := a.sineTimeList ++ b.sineTimeList
    beepDelayList := a.beepDelayList ++ b.beepDelayList }

/-- The loop body of lines 383-400 for one `(word, wordPeek)` pair:
`wordStart`, `wordEnd`, `wordDuration` and `wordPeekStart` are the `.3f`
formatted values, and the beep branch produces one volume/sine/adelay entry
while the mute branch produces the fade-out/fade-in pair. -/
def pairEntries (padSecPre padSecPost : ℚ) (beep : Bool) (beepHertz : ℤ)
    (word wordPeek : Word) : CleanLists :=
  let wordStart := fmt3 (word.start - padSecPre)
  let wordEnd := fmt3 (word.stop + padSecPost)
  let wordDuration := fmt3 (wordEnd - wordStart)
  let wordPeekStart := fmt3 (wordPeek.start - padSecPre)
  if beep then
    { muteTimeList := [MuteEntry.volumeMute wordStart wordEnd]
      sineTimeList := [{ freq := beepHertz, duration := wordDuration }]
      beepDelayList := [{ trimEnd := wordDuration
                          delaysMs := List.replicate 2 (pyInt (wordStart * 1000)) }] }
  else
    { muteTimeList := [MuteEntry.afadeOut wordStart wordEnd wordStart,
                       MuteEntry.afadeIn wordEnd wordPeekStart wordEnd]
      sineTimeList := []
      beepDelayList := [] }

/-- `Plugger.CreateCleanMuteList` (lines 360-408): filter the scrub words,
append the dummy peek word, then walk the list pairwise accumulating the
mute, sine and delay entries. -/
def createCleanMuteList (wordList : List Word) (padSecPre padSecPost : ℚ)
    (beep : Bool) (beepHertz : ℤ) : CleanLists :=
  (pairwise (appendDummyWord (naughtyWords wordList))).foldl
    (fun acc p => appendLists acc (pairEntries padSecPre padSecPost beep beepHertz p.1 p.2))
    { muteTimeList := [], sineTimeList := [], beepDelayList := [] }

/-! ### Shape lemmas for the synthesis loop -/

theorem foldl_appendLists (f : Word × Word → CleanLists) :
    ∀ (ps : List (Word × Word)) (acc : CleanLists),
      ps.foldl (fun a p => appendLists a (f p)) acc =
        appendLists acc
          { muteTimeList := ps.flatMap (fun p => (f p).muteTimeList)
            sineTimeList := ps.flatMap (fun p => (f p).sineTimeList)
            beepDelayList := ps.flatMap (fun p => (f p).beepDelayList) } := by
  intro ps
  induction ps with
  | nil =>
    intro acc
    simp [appendLists]
  | cons p t ih =>
    intro acc
    rw [List.foldl_cons, ih]
    simp [appendLists, List.flatMap_cons]

theorem createCleanMuteList_eq (wordList : List Word) (padSecPre padSecPost : ℚ)
    (beep : Bool) (beepHertz : ℤ) :
    createCleanMuteList wordList padSecPre padSecPost beep beepHertz =
      { muteTimeList := (pairwise (appendDummyWord (naughtyWords wordList))).flatMap
          (fun p => (pairEntries padSecPre padSecPost beep beepHertz p.1 p.2).muteTimeList)
        sineTimeList := (pairwise (appendDummyWord (naughtyWords wordList))).flatMap
          (fun p => (pairEntries padSecPre padSecPost beep beepHertz p.1 p.2).sineTimeList)
        beepDelayList := (pairwise (appendDummyWord (naughtyWords wordList))).flatMap
          (fun p => (pairEntries padSecPre padSecPost beep beepHertz p.1 p.2).beepDelayList) } := by
  unfold createCleanMuteList
  rw [foldl_appendLists (fun p => pairEntries padSecPre padSecPost beep beepHertz p.1 p.2)]
  simp [appendLists]

theorem zip_concat_left_of_le {α β : Type} :
    ∀ (l : List α) (t : List β) (x : α), t.length ≤ l.length →
      (l ++ [x]).zip t = l.zip t := by
  intro l
  induction l with
  | nil =>
    intro t x h
    cases t with
    | nil => rfl
    | cons b tb => simp at h
  | cons a l ih =>
    intro t x h
    cases t with
    | nil => rfl
    | cons b tb =>
      rw [List.cons_append, List.zip_cons_cons, List.zip_cons_cons,
        ih tb x (by simpa using h)]

theorem appendDummyWord_eq (nws : List Word) (lastW : Word)
    (hlast : nws.getLast? = some lastW) :
    appendDummyWord nws = nws ++ [dummyWord lastW] := by
  unfold appendDummyWord
  rw [hlast]

theorem pairwise_appendDummy (nws : List Word) (lastW : Word)
    (hlast : nws.getLast? = some lastW) :
    pairwise (appendDummyWord nws) = nws.zip (nws.tail ++ [dummyWord lastW]) := by
  have hne : nws ≠ [] := by
    intro h
    rw [h] at hlast
    cases hlast
  obtain ⟨a, as, rfl⟩ := List.exists_cons_of_ne_nil hne
  rw [appendDummyWord_eq _ _ hlast]
  unfold pairwise
  have htail : ((a :: as) ++ [dummyWord lastW]).tail = as ++ [dummyWord lastW] := by
    simp
  rw [htail]
  have hfit : (as ++ [dummyWord lastW]).length ≤ (a :: as).length := by
    simp
  rw [zip_concat_left_of_le (a :: as) (as ++ [dummyWord lastW]) (dummyWord lastW) hfit]
  rfl

theorem length_flatMap_singleton {α β : Type} (f : α → β) :
    ∀ l : List α, (l.flatMap (fun x => [f x])).length = l.length := by
  intro l
  induction l with
  | nil => rfl
  | cons a t ih => simp [List.flatMap_cons, ih]

theorem length_flatMap_two {α β : Type} (f g : α → β) :
    ∀ l : List α, (l.flatMap (fun x => [f x, g x])).length = 2 * l.length := by
  intro l
  induction l with
  | nil => rfl
  | cons a t ih =>
    simp only [List.flatMap_cons, List.length_append, ih, List.length_cons,
      List.length_nil]
    ring

theorem flatMap_singleton_eq_map {α β : Type} (f : α → β) :
    ∀ l : List α, l.flatMap (fun x => [f x]) = l.map f := by
  intro l
  induction l with
  | nil => rfl
  | cons a t ih => simp [List.flatMap_cons, ih]

theorem ne_nil_of_getLast?_eq_some {nws : List Word} {lastW : Word}
    (hlast : nws.getLast? = some lastW) : nws ≠ [] := by
  intro h
  rw [h, List.getLast?_nil] at hlast
  cases hlast

theorem pairs_firsts (nws : List Word) (lastW : Word)
    (hlast : nws.getLast? = some lastW) :
    (pairwise (appendDummyWord nws)).map Prod.fst = nws := by
  rw [pairwise_appendDummy nws lastW hlast]
  apply List.map_fst_zip
  have hpos : 0 < nws.length := List.length_pos.mpr (ne_nil_of_getLast?_eq_some hlast)
  simp only [List.length_append, List.length_tail, List.length_singleton]
  omega

theorem flatMap_pairs_fst {β : Type} (g : Word → List β) (nws : List Word) (lastW : Word)
    (hlast : nws.getLast? = some lastW) :
    (pairwise (appendDummyWord nws)).flatMap (fun p => g p.1) = nws.flatMap g := by
  have h1 : (pairwise (appendDummyWord nws)).flatMap (fun p => g p.1)
      = ((pairwise (appendDummyWord nws)).map Prod.fst).flatMap g := by
    rw [List.flatMap_map]
  rw [h1, pairs_firsts nws lastW hlast]

theorem createCleanMuteList_beep_raw (wordList : List Word) (pre post : ℚ) (hz : ℤ) :
    createCleanMuteList wordList pre post true hz =
      { muteTimeList := (naughtyWords wordList).map (fun w =>
          MuteEntry.volumeMute (fmt3 (w.start - pre)) (fmt3 (w.stop + post)))
        sineTimeList := (naughtyWords wordList).map (fun w =>
          { freq := hz, duration := fmt3 (fmt3 (w.stop + post) - fmt3 (w.start - pre)) })
        beepDelayList := (naughtyWords wordList).map (fun w =>
          { trimEnd := fmt3 (fmt3 (w.stop + post) - fmt3 (w.start - pre))
            delaysMs := List.replicate 2 (pyInt (fmt3 (w.start - pre) * 1000)) }) } := by
  rw [createCleanMuteList_eq]
  cases hn : naughtyWords wordList with
  | nil => rfl
  | cons a as =>
    have hlast : (a :: as).getLast? = some ((a :: as).getLast (List.cons_ne_nil a as)) :=
      List.getLast?_eq_getLast _ _
    have hmut : (fun p : Word × Word =>
        (pairEntries pre post true hz p.1 p.2).muteTimeList) =
        (fun p : Word × Word =>
          [MuteEntry.volumeMute (fmt3 (p.1.start - pre)) (fmt3 (p.1.stop + post))]) := by
      funext p
      simp [pairEntries]
    have hsin : (fun p : Word × Word =>
        (pairEntries pre post true hz p.1 p.2).sineTimeList) =
        (fun p : Word × Word =>
          [({ freq := hz,
              duration := fmt3 (fmt3 (p.1.stop + post) - fmt3 (p.1.start - pre)) } : SineEntry)]) := by
      funext p
      simp [pairEntries]
    have hdel : (fun p : Word × Word =>
        (pairEntries pre post true hz p.1 p.2).beepDelayList) =
        (fun p : Word × Word =>
          [({ trimEnd := fmt3 (fmt3 (p.1.stop + post) - fmt3 (p.1.start - pre))
              delaysMs := List.replicate 2 (pyInt (fmt3 (p.1.start - pre) * 1000)) } : DelayEntry)]) := by
      funext p
      simp [pairEntries]
    rw [hmut, hsin, hdel,
      flatMap_pairs_fst (fun w =>
        [MuteEntry.volumeMute (fmt3 (w.start - pre)) (fmt3 (w.stop + post))]) _ _ hlast,
      flatMap_pairs_fst (fun w =>
        [({ freq := hz,
            duration := fmt3 (fmt3 (w.stop + post) - fmt3 (w.start - pre)) } : SineEntry)]) _ _ hlast,
      flatMap_pairs_fst (fun w =>
        [({ trimEnd := fmt3 (fmt3 (w.stop + post) - fmt3 (w.start - pre))
            delaysMs := List.replicate 2 (pyInt (fmt3 (w.start - pre) * 1000)) } : DelayEntry)]) _ _ hlast,
      flatMap_singleton_eq_map, flatMap_singleton_eq_map, flatMap_singleton_eq_map]

/-! ## Beep filter graph (`Plugger.EncodeCleanAudio`, monkeyplug.py lines 416-424) -/

/-- The beep filter graph assembled in the beep branch of `EncodeCleanAudio`:
the mute chain feeds the labelled mix, every sine entry becomes node
`beep{i+1}`, every delay entry becomes `beep{i+1}` to `beep{i+1}_delayed`,
the delayed labels are concatenated before the mixer, and the mixer input
count is `len(beepDelayList) + 1`. -/
structure BeepFilterGraph where
  muteChain : List MuteEntry
  sineNodes : List (ℕ × SineEntry)
  delayNodes : List (ℕ × DelayEntry)
  mixLabels : List ℕ
  mixInputs : ℕ
deriving DecidableEq

/-- Structural rendering of the f-string at lines 417-423. -/
def buildBeepFilter (r : CleanLists) : BeepFilterGraph :=
  { muteChain := r.muteTimeList
    sineNodes := r.sineTimeList.enum.map (fun p => (p.1 + 1, p.2))
    delayNodes := r.beepDelayList.enum.map (fun p => (p.1 + 1, p.2))
    mixLabels := (List.range r.beepDelayList.length).map (fun i => i + 1)
    mixInputs := r.beepDelayList.length + 1 }

theorem enum_labels (l : List α) :
    (l.enum.map (fun p => (p.1 + 1, p.2))).map Prod.fst =
      (List.range l.length).map (fun i => i + 1) := by
  rw [List.enum_eq_zip_range, List.map_map]
  have h : (Prod.fst ∘ fun p : ℕ × α => (p.1 + 1, p.2)) =
      (fun i => i + 1) ∘ Prod.fst := rfl
  rw [h, ← List.map_map, List.map_fst_zip]
  rw [List.length_range]

/-! ### C10 -/

/-- C10: in beep mode the mute, sine and delay lists all have length equal to
the number of transcript words with `scrub = true`; the amix input count of
the assembled graph is the tone count plus one; and the `beep{i+1}` node
labels are sequential and collision-free, with sine and delay nodes sharing
the same label sequence. -/
theorem beep_lists_aligned (wordList : List Word) (padSecPre padSecPost : ℚ)
    (beepHertz : ℤ) :
    (createCleanMuteList wordList padSecPre padSecPost true beepHertz).muteTimeList.length =
      (wordList.filter (fun w => w.scrub)).length ∧
    (createCleanMuteList wordList padSecPre padSecPost true beepHertz).sineTimeList.length =
      (wordList.filter (fun w => w.scrub)).length ∧
    (createCleanMuteList wordList padSecPre padSecPost true beepHertz).beepDelayList.length =
      (wordList.filter (fun w => w.scrub)).length ∧
    (buildBeepFilter (createCleanMuteList wordList padSecPre padSecPost true beepHertz)).mixInputs =
      (createCleanMuteList wordList padSecPre padSecPost true beepHertz).sineTimeList.length + 1 ∧
    (buildBeepFilter (createCleanMuteList wordList padSecPre padSecPost true beepHertz)).sineNodes.map
        Prod.fst =
      (List.range (wordList.filter (fun w => w.scrub)).length).map (fun i => i + 1) ∧
    ((buildBeepFilter (createCleanMuteList wordList padSecPre padSecPost true beepHertz)).sineNodes.map
        Prod.fst).Nodup ∧
    (buildBeepFilter (createCleanMuteList wordList padSecPre padSecPost true beepHertz)).sineNodes.map
        Prod.fst =
      (buildBeepFilter (createCleanMuteList wordList padSecPre padSecPost true beepHertz)).delayNodes.map
        Prod.fst := by
  rw [createCleanMuteList_beep_raw]
  have hn : naughtyWords wordList = wordList.filter (fun w => w.scrub) := rfl
  refine ⟨?_, ?_, ?_, ?_, ?_, ?_, ?_⟩
  · simp [hn]
  · simp [hn]
  · simp [hn]
  · simp [buildBeepFilter]
  · rw [buildBeepFilter]
    simp only [enum_labels, List.length_map, hn]
  · rw [buildBeepFilter]
    simp only [enum_labels]
    exact (List.nodup_range _).map (add_left_injective 1)
  · rw [buildBeepFilter]
    simp only [enum_labels, List.length_map]

/-! ### C5 -/

/-- C5: in beep mode every naughty word yields a tone whose duration is the
difference of the 3-decimal padded end and padded start, and a delay entry
whose millisecond offset is `round(paddedStart * 1000)` repeated identically
for both channels; in particular the word with start 2.000 and end 2.500 at
zero padding yields tone duration 0.500 and delay offset 2000 on both
channels. -/
theorem beep_duration_and_delay (wordList : List Word) (padSecPre padSecPost : ℚ)
    (beepHertz : ℤ) :
    ((createCleanMuteList wordList padSecPre padSecPost true beepHertz).sineTimeList =
      (naughtyWords wordList).map (fun w =>
        { freq := beepHertz
          duration := fmt3 (w.stop + padSecPost) - fmt3 (w.start - padSecPre) }) ∧
     (createCleanMuteList wordList padSecPre padSecPost true beepHertz).beepDelayList =
      (naughtyWords wordList).map (fun w =>
        { trimEnd := fmt3 (w.stop + padSecPost) - fmt3 (w.start - padSecPre)
          delaysMs := List.replicate 2 (round ((w.start - padSecPre) * 1000)) })) ∧
    (createCleanMuteList [{ word := "damn", start := 2, stop := 5/2, conf := 1, scrub := true }]
        0 0 true 1000).sineTimeList = [{ freq := 1000, duration := 1/2 }] ∧
    (createCleanMuteList [{ word := "damn", start := 2, stop := 5/2, conf := 1, scrub := true }]
        0 0 true 1000).beepDelayList = [{ trimEnd := 1/2, delaysMs := [2000, 2000] }] := by
  have hgen : ∀ (ws : List Word) (pre post : ℚ) (hz : ℤ),
      (createCleanMuteList ws pre post true hz).sineTimeList =
        (naughtyWords ws).map (fun w =>
          { freq := hz, duration := fmt3 (w.stop + post) - fmt3 (w.start - pre) }) ∧
      (createCleanMuteList ws pre post true hz).beepDelayList =
        (naughtyWords ws).map (fun w =>
          { trimEnd := fmt3 (w.stop + post) - fmt3 (w.start - pre)
            delaysMs := List.replicate 2 (round ((w.start - pre) * 1000)) }) := by
    intro ws pre post hz
    rw [createCleanMuteList_beep_raw]
    constructor
    · apply List.map_congr_left
      intro w _
      rw [fmt3_sub_fmt3]
    · apply List.map_congr_left
      intro w _
      rw [fmt3_sub_fmt3, pyInt_fmt3_mul_1000]
  refine ⟨hgen wordList padSecPre padSecPost beepHertz, ?_, ?_⟩
  · rw [(hgen [{ word := "damn", start := 2, stop := 5/2, conf := 1, scrub := true }] 0 0 1000).1]
    have hN : naughtyWords [{ word := "damn", start := 2, stop := 5/2, conf := 1, scrub := true }] =
        [{ word := "damn", start := 2, stop := 5/2, conf := 1, scrub := true }] := rfl
    rw [hN, List.map_cons, List.map_nil]
    have hd : fmt3 ((5 : ℚ)/2 + 0) - fmt3 ((2 : ℚ) - 0) = 1/2 := by
      have h1 : ((5 : ℚ)/2 + 0) = ((2500 : ℤ) : ℚ) / 1000 := by norm_num
      have h2 : ((2 : ℚ) - 0) = ((2000 : ℤ) : ℚ) / 1000 := by norm_num
      rw [h1, h2, fmt3_grid, fmt3_grid]
      norm_num
    rw [hd]
  · rw [(hgen [{ word := "damn", start := 2, stop := 5/2, conf := 1, scrub := true }] 0 0 1000).2]
    have hN : naughtyWords [{ word := "damn", start := 2, stop := 5/2, conf := 1, scrub := true }] =
        [{ word := "damn", start := 2, stop := 5/2, conf := 1, scrub := true }] := rfl
    rw [hN, List.map_cons, List.map_nil]
    have hd : fmt3 ((5 : ℚ)/2 + 0) - fmt3 ((2 : ℚ) - 0) = 1/2 := by
      have h1 : ((5 : ℚ)/2 + 0) = ((2500 : ℤ) : ℚ) / 1000 := by norm_num
      have h2 : ((2 : ℚ) - 0) = ((2000 : ℤ) : ℚ) / 1000 := by norm_num
      rw [h1, h2, fmt3_grid, fmt3_grid]
      norm_num
    have hr : round (((2 : ℚ) - 0) * 1000) = 2000 := by
      norm_num [round_eq]
    rw [hd, hr]
    rfl

/-! ### C6 -/

/-- C6: the dummy word appended after the last naughty word only supplies
peek boundaries and never emits an audible effect of its own: in mute mode a
non-empty naughty-word list of length n produces exactly n fade-out/fade-in
pairs, one per real naughty word in list order, each anchored at that word
padded start and padded end; the dummy word contributes nothing but the last
peek value. -/
theorem dummy_word_emits_nothing (wordList : List Word) (padSecPre padSecPost : ℚ)
    (beepHertz : ℤ) (hne : naughtyWords wordList ≠ []) :
    ∃ peeks : List ℚ,
      peeks.length = (naughtyWords wordList).length ∧
      (createCleanMuteList wordList padSecPre padSecPost false beepHertz).muteTimeList =
        ((naughtyWords wordList).zip peeks).flatMap (fun q =>
          [MuteEntry.afadeOut (fmt3 (q.1.start - padSecPre)) (fmt3 (q.1.stop + padSecPost))
            (fmt3 (q.1.start - padSecPre)),
           MuteEntry.afadeIn (fmt3 (q.1.stop + padSecPost)) q.2
            (fmt3 (q.1.stop + padSecPost))]) ∧
      (createCleanMuteList wordList padSecPre padSecPost false beepHertz).muteTimeList.length =
        2 * (naughtyWords wordList).length := by
  have hlast : (naughtyWords wordList).getLast? =
      some ((naughtyWords wordList).getLast hne) := List.getLast?_eq_getLast _ _
  set nws := naughtyWords wordList with hnws
  set lastW := nws.getLast hne with hlastW
  have hpos : 0 < nws.length := List.length_pos.mpr hne
  refine ⟨(nws.tail ++ [dummyWord lastW]).map (fun wp => fmt3 (wp.start - padSecPre)), ?_, ?_, ?_⟩
  · simp only [List.length_map, List.length_append, List.length_tail, List.length_singleton]
    omega
  · rw [createCleanMuteList_eq]
    simp only []
    rw [pairwise_appendDummy nws lastW hlast]
    rw [List.zip_map_right, List.flatMap_map]
    have hfun : (fun p : Word × Word =>
        (pairEntries padSecPre padSecPost false beepHertz p.1 p.2).muteTimeList) =
        (fun p : Word × Word =>
          [MuteEntry.afadeOut (fmt3 (p.1.start - padSecPre)) (fmt3 (p.1.stop + padSecPost))
            (fmt3 (p.1.start - padSecPre)),
           MuteEntry.afadeIn (fmt3 (p.1.stop + padSecPost)) (fmt3 (p.2.start - padSecPre))
            (fmt3 (p.1.stop + padSecPost))]) := by
      funext p
      simp [pairEntries]
    rw [hfun]
    rfl
  · rw [createCleanMuteList_eq]
    simp only []
    rw [pairwise_appendDummy nws lastW hlast]
    have hfun : (fun p : Word × Word =>
        (pairEntries padSecPre padSecPost false beepHertz p.1 p.2).muteTimeList) =
        (fun p : Word × Word =>
          [MuteEntry.afadeOut (fmt3 (p.1.start - padSecPre)) (fmt3 (p.1.stop + padSecPost))
            (fmt3 (p.1.start - padSecPre)),
           MuteEntry.afadeIn (fmt3 (p.1.stop + padSecPost)) (fmt3 (p.2.start - padSecPre))
            (fmt3 (p.1.stop + padSecPost))]) := by
      funext p
      simp [pairEntries]
    rw [hfun, length_flatMap_two]
    rw [List.length_zip]
    simp only [List.length_append, List.length_tail, List.length_singleton]
    omega

theorem dummy_word_emits_nothing_witness :
    ∃ peeks : List ℚ,
      peeks.length = (naughtyWords [Word.mk "damn" 1 2 1 true]).length ∧
      (createCleanMuteList [Word.mk "damn" 1 2 1 true] 0 0 false 1000).muteTimeList =
        ((naughtyWords [Word.mk "damn" 1 2 1 true]).zip peeks).flatMap (fun q =>
          [MuteEntry.afadeOut (fmt3 (q.1.start - 0)) (fmt3 (q.1.stop + 0)) (fmt3 (q.1.start - 0)),
           MuteEntry.afadeIn (fmt3 (q.1.stop + 0)) q.2 (fmt3 (q.1.stop + 0))]) ∧
      (createCleanMuteList [Word.mk "damn" 1 2 1 true] 0 0 false 1000).muteTimeList.length =
        2 * (naughtyWords [Word.mk "damn" 1 2 1 true]).length :=
  dummy_word_emits_nothing [Word.mk "damn" 1 2 1 true] 0 0 1000 (List.cons_ne_nil _ _)

/-! ### C1 -/

/-- C1 counterexample: two naughty words whose padded intervals overlap
(`peekStart = 1.700 < paddedEnd = 2.500`) are not merged into a single
silence region: the code emits two separate fade-out windows and a fade-in
directive spanning the inverted window from 2.500 down to 1.700. -/
theorem overlap_counterexample :
    (createCleanMuteList [Word.mk "damn" 1 2 1 true, Word.mk "hell" (11/5) 3 1 true]
        (1/2) (1/2) false 1000).muteTimeList =
      [MuteEntry.afadeOut (1/2) (5/2) (1/2),
       MuteEntry.afadeIn (5/2) (17/10) (5/2),
       MuteEntry.afadeOut (17/10) (7/2) (17/10),
       MuteEntry.afadeIn (7/2) (7/2) (7/2)] ∧
    (17/10 : ℚ) < 5/2 := by
  refine ⟨?_, by norm_num⟩
  have e1 : fmt3 ((1 : ℚ) - 1/2) = 1/2 := by
    rw [(by norm_num : ((1 : ℚ) - 1/2) = ((500 : ℤ) : ℚ) / 1000), fmt3_grid]
    norm_num
  have e2 : fmt3 ((2 : ℚ) + 1/2) = 5/2 := by
    rw [(by norm_num : ((2 : ℚ) + 1/2) = ((2500 : ℤ) : ℚ) / 1000), fmt3_grid]
    norm_num
  have e3 : fmt3 ((11 : ℚ)/5 - 1/2) = 17/10 := by
    rw [(by norm_num : ((11 : ℚ)/5 - 1/2) = ((1700 : ℤ) : ℚ) / 1000), fmt3_grid]
    norm_num
  have e4 : fmt3 ((3 : ℚ) + 1/2) = 7/2 := by
    rw [(by norm_num : ((3 : ℚ) + 1/2) = ((3500 : ℤ) : ℚ) / 1000), fmt3_grid]
    norm_num
  have e5 : fmt3 ((3 : ℚ) + 1 - 1/2) = 7/2 := by
    rw [(by norm_num : ((3 : ℚ) + 1 - 1/2) = ((3500 : ℤ) : ℚ) / 1000), fmt3_grid]
    norm_num
  have hred : (createCleanMuteList [Word.mk "damn" 1 2 1 true, Word.mk "hell" (11/5) 3 1 true]
        (1/2) (1/2) false 1000).muteTimeList =
      [MuteEntry.afadeOut (fmt3 ((1 : ℚ) - 1/2)) (fmt3 ((2 : ℚ) + 1/2)) (fmt3 ((1 : ℚ) - 1/2)),
       MuteEntry.afadeIn (fmt3 ((2 : ℚ) + 1/2)) (fmt3 ((11 : ℚ)/5 - 1/2)) (fmt3 ((2 : ℚ) + 1/2)),
       MuteEntry.afadeOut (fmt3 ((11 : ℚ)/5 - 1/2)) (fmt3 ((3 : ℚ) + 1/2))
         (fmt3 ((11 : ℚ)/5 - 1/2)),
       MuteEntry.afadeIn (fmt3 ((3 : ℚ) + 1/2)) (fmt3 ((3 : ℚ) + 1 - 1/2))
         (fmt3 ((3 : ℚ) + 1/2))] := rfl
  rw [hred, e1, e2, e3, e4, e5]

/-- C1 amended: when the padded intervals of two consecutive naughty words
abut or overlap (`peekStart <= paddedEnd`) the code does not merge them: it
still emits one fade-out/fade-in pair per word, including the fade-in
directive whose enable window runs from `paddedEnd` to the not-larger
`peekStart`. -/
theorem overlap_not_merged (w1 w2 : Word) (padSecPre padSecPost : ℚ) (beepHertz : ℤ)
    (h1 : w1.scrub = true) (h2 : w2.scrub = true)
    (hover : fmt3 (w2.start - padSecPre) ≤ fmt3 (w1.stop + padSecPost)) :
    (createCleanMuteList [w1, w2] padSecPre padSecPost false beepHertz).muteTimeList =
      [MuteEntry.afadeOut (fmt3 (w1.start - padSecPre)) (fmt3 (w1.stop + padSecPost))
         (fmt3 (w1.start - padSecPre)),
       MuteEntry.afadeIn (fmt3 (w1.stop + padSecPost)) (fmt3 (w2.start - padSecPre))
         (fmt3 (w1.stop + padSecPost)),
       MuteEntry.afadeOut (fmt3 (w2.start - padSecPre)) (fmt3 (w2.stop + padSecPost))
         (fmt3 (w2.start - padSecPre)),
       MuteEntry.afadeIn (fmt3 (w2.stop + padSecPost)) (fmt3 (w2.stop + 1 - padSecPre))
         (fmt3 (w2.stop + padSecPost))] ∧
    fmt3 (w2.start - padSecPre) ≤ fmt3 (w1.stop + padSecPost) := by
  refine ⟨?_, hover⟩
  have hN : naughtyWords [w1, w2] = [w1, w2] := by
    simp [naughtyWords, List.filter, h1, h2]
  unfold createCleanMuteList
  rw [hN]
  rfl

theorem overlap_not_merged_witness :
    (createCleanMuteList [Word.mk "damn" 1 2 1 true, Word.mk "hell" (11/5) 3 1 true]
        (1/2) (1/2) false 1000).muteTimeList =
      [MuteEntry.afadeOut (fmt3 ((Word.mk "damn" 1 2 1 true).start - 1/2))
         (fmt3 ((Word.mk "damn" 1 2 1 true).stop + 1/2))
         (fmt3 ((Word.mk "damn" 1 2 1 true).start - 1/2)),
       MuteEntry.afadeIn (fmt3 ((Word.mk "damn" 1 2 1 true).stop + 1/2))
         (fmt3 ((Word.mk "hell" (11/5) 3 1 true).start - 1/2))
         (fmt3 ((Word.mk "damn" 1 2 1 true).stop + 1/2)),
       MuteEntry.afadeOut (fmt3 ((Word.mk "hell" (11/5) 3 1 true).start - 1/2))
         (fmt3 ((Word.mk "hell" (11/5) 3 1 true).stop + 1/2))
         (fmt3 ((Word.mk "hell" (11/5) 3 1 true).start - 1/2)),
       MuteEntry.afadeIn (fmt3 ((Word.mk "hell" (11/5) 3 1 true).stop + 1/2))
         (fmt3 ((Word.mk "hell" (11/5) 3 1 true).stop + 1 - 1/2))
         (fmt3 ((Word.mk "hell" (11/5) 3 1 true).stop + 1/2))] ∧
    fmt3 ((Word.mk "hell" (11/5) 3 1 true).start - 1/2) ≤
      fmt3 ((Word.mk "damn" 1 2 1 true).stop + 1/2) :=
  overlap_not_merged (Word.mk "damn" 1 2 1 true) (Word.mk "hell" (11/5) 3 1 true)
    (1/2) (1/2) 1000 rfl rfl
    (by
      rw [(by norm_num : ((Word.mk "hell" (11/5) 3 1 true).start - 1/2 : ℚ) =
            ((1700 : ℤ) : ℚ) / 1000), fmt3_grid,
        (by norm_num : ((Word.mk "damn" 1 2 1 true).stop + 1/2 : ℚ) =
            ((2500 : ℤ) : ℚ) / 1000), fmt3_grid]
      norm_num)

/-! ### C4 -/

/-- C4 counterexample: a synthesized interval with negative duration (word
end 1.500 before word start 2.000, so duration -0.500) is not rejected: no
validation exists, and the beep branch emits the sine directive carrying the
negative duration unchanged. -/
theorem negative_duration_emitted :
    (createCleanMuteList [Word.mk "damn" 2 (3/2) 1 true] 0 0 true 1000).sineTimeList =
      [SineEntry.mk 1000 (-(1/2))] ∧ (-(1/2) : ℚ) < 0 := by
  refine ⟨?_, by norm_num⟩
  have hred : (createCleanMuteList [Word.mk "damn" 2 (3/2) 1 true] 0 0 true 1000).sineTimeList =
      [SineEntry.mk 1000 (fmt3 (fmt3 ((3 : ℚ)/2 + 0) - fmt3 ((2 : ℚ) - 0)))] := rfl
  rw [hred,
    (by norm_num : ((3 : ℚ)/2 + 0) = ((1500 : ℤ) : ℚ) / 1000), fmt3_grid,
    (by norm_num : ((2 : ℚ) - 0) = ((2000 : ℤ) : ℚ) / 1000), fmt3_grid,
    (by push_cast; norm_num :
      ((1500 : ℤ) : ℚ) / 1000 - ((2000 : ℤ) : ℚ) / 1000 = ((-500 : ℤ) : ℚ) / 1000),
    fmt3_grid]
  norm_num

/-- C4 amended: the synthesizer performs no duration validation: even when
the 3-decimal duration `paddedEnd - paddedStart` is zero or negative, no
error is raised and the beep branch emits the sine directive carrying that
duration unchanged (nothing is clamped and nothing is dropped). -/
theorem nonpositive_duration_not_validated (w : Word) (padSecPre padSecPost : ℚ)
    (beepHertz : ℤ) (hs : w.scrub = true)
    (hd : fmt3 (w.stop + padSecPost) - fmt3 (w.start - padSecPre) ≤ 0) :
    (createCleanMuteList [w] padSecPre padSecPost true beepHertz).sineTimeList =
      [{ freq := beepHertz
         duration := fmt3 (w.stop + padSecPost) - fmt3 (w.start - padSecPre) }] ∧
    fmt3 (w.stop + padSecPost) - fmt3 (w.start - padSecPre) ≤ 0 := by
  refine ⟨?_, hd⟩
  rw [createCleanMuteList_beep_raw]
  have hN : naughtyWords [w] = [w] := by
    simp [naughtyWords, List.filter, hs]
  simp only [hN, List.map_cons, List.map_nil, fmt3_sub_fmt3]

theorem nonpositive_duration_not_validated_witness :
    (createCleanMuteList [Word.mk "damn" 2 (3/2) 1 true] 0 0 true 2000).sineTimeList =
      [{ freq := 2000
         duration := fmt3 ((Word.mk "damn" 2 (3/2) 1 true).stop + 0) -
           fmt3 ((Word.mk "damn" 2 (3/2) 1 true).start - 0) }] ∧
    fmt3 ((Word.mk "damn" 2 (3/2) 1 true).stop + 0) -
      fmt3 ((Word.mk "damn" 2 (3/2) 1 true).start - 0) ≤ 0 :=
  nonpositive_duration_not_validated (Word.mk "damn" 2 (3/2) 1 true) 0 0 2000 rfl
    (by
      rw [(by norm_num : ((Word.mk "damn" 2 (3/2) 1 true).stop + 0 : ℚ) =
            ((1500 : ℤ) : ℚ) / 1000), fmt3_grid,
        (by norm_num : ((Word.mk "damn" 2 (3/2) 1 true).start - 0 : ℚ) =
            ((2000 : ℤ) : ℚ) / 1000), fmt3_grid]
      norm_num)

/-! ## Idempotency guard and encode entry
(`GetMonkeyplugTagged` lines 103-118, `Plugger.EncodeCleanAudio` lines 411-481) -/

/-- The candidate metadata fields, in check order. -/
def MUTAGEN_METADATA_TAGS : List String := ["encodedby", "comment"]

/-- The sentinel marker value. -/
def MUTAGEN_METADATA_TAG_VALUE : String := "monkeyplug"

/-- Container metadata: field names mapped to their string values. -/
abbrev FileTags := List (String × List String)

/-- Python `mut.get(tag, default=())` over the modelled metadata. -/
def getTag (tags : FileTags) (t : String) : List String :=
  ((tags.find? (fun p => p.1 == t)).map Prod.snd).getD []

/-- `GetMonkeyplugTagged`: true when any candidate field contains the
sentinel, scanning in order and breaking on the first match. -/
def getMonkeyplugTagged (tags : FileTags) : Bool :=
  MUTAGEN_METADATA_TAGS.any (fun t => (getTag tags t).contains MUTAGEN_METADATA_TAG_VALUE)

/-- Result of `EncodeCleanAudio`: whether the classify/synthesize/encode
pipeline ran, the synthesized lists when it did, and the bytes written to the
output path. -/
structure EncodeOutcome where
  pipelineRan : Bool
  cleanLists : Option CleanLists
  outputBytes : List ℕ
deriving DecidableEq

/-- `Plugger.EncodeCleanAudio` (lines 411-481), with the external ffmpeg
encoder abstracted as the capability `encodeExt`. The guard at line 412 runs
the pipeline when the force flag is set or the input is not tagged; otherwise
the `shutil.copyfile` branch at line 479 copies the input bytes verbatim. -/
def encodeCleanAudio (encodeExt : List ℕ → CleanLists → List ℕ)
    (inputBytes : List ℕ) (tags : FileTags) (forceDespiteTag : Bool)
    (wordList : List Word) (padSecPre padSecPost : ℚ) (beep : Bool) (beepHertz : ℤ) :
    EncodeOutcome :=
  if forceDespiteTag = true ∨ getMonkeyplugTagged tags = false then
    let lists := createCleanMuteList wordList padSecPre padSecPost beep beepHertz
    { pipelineRan := true, cleanLists := some lists, outputBytes := encodeExt inputBytes lists }
  else
    { pipelineRan := false, cleanLists := none, outputBytes := inputBytes }

/-! ### C3 -/

/-- C3: when the input already carries the sentinel tag and the force flag is
not set, `EncodeCleanAudio` bypasses the whole pipeline — no classification
or synthesis result exists, the encoder capability is never consulted, and
the output bytes equal the input bytes verbatim. -/
theorem tagged_input_short_circuits (encodeExt : List ℕ → CleanLists → List ℕ)
    (inputBytes : List ℕ) (tags : FileTags) (wordList : List Word)
    (padSecPre padSecPost : ℚ) (beep : Bool) (beepHertz : ℤ)
    (htag : getMonkeyplugTagged tags = true) :
    encodeCleanAudio encodeExt inputBytes tags false wordList padSecPre padSecPost beep
        beepHertz =
      { pipelineRan := false, cleanLists := none, outputBytes := inputBytes } := by
  unfold encodeCleanAudio
  rw [if_neg]
  simp [htag]

theorem tagged_input_short_circuits_witness :
    encodeCleanAudio (fun _ _ => []) [7, 7, 7] [("comment", ["monkeyplug"])] false []
        0 0 false 1000 =
      { pipelineRan := false, cleanLists := none, outputBytes := [7, 7, 7] } :=
  tagged_input_short_circuits (fun _ _ => []) [7, 7, 7] [("comment", ["monkeyplug"])]
    [] 0 0 false 1000 (by decide)

/-! ## Transcript-source policy -/

/-- Where the transcript for a run comes from. -/
inductive TranscriptSource where
  | explicitFile (path : String)
  | cachedFile (path : String)
  | recognizer
deriving DecidableEq

/-- Modelled from the spec: the transcript-source decision procedure. The
code implementing it (`LoadTranscriptFromFile` and the
`inputTranscript`/`saveTranscript`/`forceRetranscribe` wiring) is not present
under src/ — only its tests and the CLI flag declarations in utilities.py
are — so the decision is modelled from the spec: an explicit transcript
override path, if given, always wins; otherwise, if caching is enabled and a
prior cache file exists and re-transcription is not forced, the cache is
reused; otherwise the recognizer is invoked fresh. -/
def decideTranscriptSource (inputTranscript : Option String) (saveTranscript : Bool)
    (cachePath : String) (cacheExists : Bool) (forceRetranscribe : Bool) :
    TranscriptSource :=
  match inputTranscript with
  | some p => TranscriptSource.explicitFile p
  | none =>
    if saveTranscript && cacheExists && !forceRetranscribe then
      TranscriptSource.cachedFile cachePath
    else
      TranscriptSource.recognizer

/-- Whether a decision leads to invoking the recognizer capability. -/
def recognizerInvoked : TranscriptSource → Bool
  | TranscriptSource.recognizer => true
  | _ => false

/-! ### C2 -/

/-- C2: transcript-source precedence — an explicit transcript override always
wins and the recognizer is then never invoked, regardless of the
force-retranscribe flag; otherwise the cache is reused exactly when caching
is enabled, the cache file exists and re-transcription is not forced; in
every remaining case the recognizer runs fresh. -/
theorem transcript_source_precedence (inputTranscript : Option String)
    (saveTranscript : Bool) (cachePath : String) (cacheExists forceRetranscribe : Bool) :
    (∀ p, inputTranscript = some p →
      decideTranscriptSource inputTranscript saveTranscript cachePath cacheExists
          forceRetranscribe = TranscriptSource.explicitFile p ∧
      recognizerInvoked (decideTranscriptSource inputTranscript saveTranscript cachePath
          cacheExists forceRetranscribe) = false) ∧
    (inputTranscript = none → saveTranscript = true → cacheExists = true →
      forceRetranscribe = false →
      decideTranscriptSource inputTranscript saveTranscript cachePath cacheExists
          forceRetranscribe = TranscriptSource.cachedFile cachePath) ∧
    (inputTranscript = none → (saveTranscript && cacheExists && !forceRetranscribe) = false →
      decideTranscriptSource inputTranscript saveTranscript cachePath cacheExists
          forceRetranscribe = TranscriptSource.recognizer) := by
  refine ⟨?_, ?_, ?_⟩
  · intro p hp
    subst hp
    exact ⟨rfl, rfl⟩
  · intro hnone hst hce hfr
    subst hnone
    simp [decideTranscriptSource, hst, hce, hfr]
  · intro hnone hcond
    subst hnone
    simp [decideTranscriptSource, hcond]

theorem transcript_source_precedence_witness :
    decideTranscriptSource (some "override.json") true "cache.json" true true =
      TranscriptSource.explicitFile "override.json" ∧
    recognizerInvoked (decideTranscriptSource (some "override.json") true "cache.json"
      true true) = false :=
  (transcript_source_precedence (some "override.json") true "cache.json" true true).1
    "override.json" rfl
